import Mathlib

/-!
# Verification of the `retry` Go package

Shallow embedding of the `bjaus/retry` repository: composable backoff
strategies (`Constant`, `Linear`, `Exponential`, `WithCap`, `WithMin`,
`WithJitter`), the terminal-error marker (`Stop` / `stopError`), and the
retry execution loop (`execute`), together with proofs about the claims of
the specification.

Modelling conventions:
* Go `time.Duration` is `int64` nanoseconds; it is modelled as `Int` with an
  explicit two's-complement wrap (`wrap64`) at every operation where the Go
  code can overflow (`Linear` and `Exponential` multiplications).
* `float64` arithmetic inside `WithJitter` is idealised as exact rational
  arithmetic (`ℚ`); the final Go conversion `time.Duration(float64)` truncates
  toward zero, which is modelled exactly (`truncToInt`).  The random source
  `rand.Float64` yields values in `[0, 1)`; a jittered strategy consumes draws
  from an explicit list.
* Go errors are modelled by the inductive `GoErr`; `errors.As` targeting
  `*stopError` is `findStop` (pre-order walk through `Unwrap`, including
  `errors.Join` children), `errors.Is` is `isErr`.
* The execution loop `execute` is deterministic given an `Env`: the sequence
  of operation results, the values returned by successive `Clock.Now()` calls
  and whether each `Clock.Sleep` is interrupted by context cancellation.  The
  returned `Trace` records the result, the number of operation invocations,
  every lifecycle-hook invocation site and every sleep, plus which exit of the
  loop fired.
-/

namespace Retry

/-- Go constant `math.MaxInt64`. -/
def maxInt64 : Int := 2 ^ 63 - 1

/-- Go constant `math.MinInt64`. -/
def minInt64 : Int := -(2 ^ 63)

/-- Two's-complement wrap-around of Go `int64` arithmetic. -/
def wrap64 (x : Int) : Int := (x + 2 ^ 63) % 2 ^ 64 - 2 ^ 63

/-- Go `time.Duration(float64-expression)` conversion truncates toward zero. -/
def truncToInt (q : ℚ) : Int := if 0 ≤ q then ⌊q⌋ else ⌈q⌉

/-- Saturating subtraction: `time.Time.Sub` saturates at the `time.Duration` (int64) bounds. -/
def satSub (a b : Int) : Int :=
  let d := a - b
  if d > maxInt64 then maxInt64 else if d < minInt64 then minInt64 else d

/-- Syntax of the backoff strategies provided by the package (`Backoff`
values built from the exported constructors).  The jitter factor is a
rational, idealising the Go `float64` factor. -/
inductive Strategy : Type
  | constant (d : Int)
  | linear (base : Int)
  | exponential (base : Int)
  | withCap (max : Int) (inner : Strategy)
  | withMin (min : Int) (inner : Strategy)
  | withJitter (factor : ℚ) (inner : Strategy)

/-- Delay computation `Backoff.Delay` for each strategy, translated clause by clause from
`backoff.go`.  `us` is the stream of `rand.Float64()` draws consumed by
jittered strategies (one per `WithJitter` whose factor is positive); the
second component returns the unconsumed rest. -/
def delayAux : Strategy → Int → List ℚ → Int × List ℚ
  | .constant d, _, us => (d, us)
  | .linear base, attempt, us =>
      -- base * time.Duration(attempt), int64 multiplication wraps
      (wrap64 (base * attempt), us)
  | .exponential base, attempt, us =>
      if attempt ≤ 0 then (base, us)
      else if attempt > 62 then (maxInt64, us)
      else (wrap64 (base * 2 ^ (attempt - 1).toNat), us)
  | .withCap max b, attempt, us =>
      let r := delayAux b attempt us
      (if r.1 > max then max else r.1, r.2)
  | .withMin min b, attempt, us =>
      let r := delayAux b attempt us
      (if r.1 < min then min else r.1, r.2)
  | .withJitter factor b, attempt, us =>
      let r := delayAux b attempt us
      if factor ≤ 0 then r
      else
        let u := r.2.headD 0
        let jitterRange : ℚ := (r.1 : ℚ) * factor
        let jitter : ℚ := (u * 2 - 1) * jitterRange
        let result := truncToInt ((r.1 : ℚ) + jitter)
        (if result < 0 then 0 else result, r.2.tail)

/-- The delay a strategy computes for `attempt`, given the jitter draws. -/
def Strategy.delay (s : Strategy) (attempt : Int) (us : List ℚ) : Int :=
  (delayAux s attempt us).1

example : (Strategy.constant 100).delay 7 [] = 100 := by decide
example : (Strategy.linear 100).delay 3 [] = 300 := by decide
example : (Strategy.exponential 100).delay 5 [] = 1600 := by decide
example : (Strategy.exponential 100).delay 0 [] = 100 := by decide
example : (Strategy.exponential 100).delay 63 [] = maxInt64 := by decide
example : (Strategy.withCap 500 (.exponential 100)).delay 4 [] = 500 := by decide
example : (Strategy.withMin 150 (.linear 50)).delay 2 [] = 150 := by decide
example : (Strategy.withJitter (1/5) (.constant 100)).delay 1 [(1 : ℚ)/2] = 100 := by
  norm_num [Strategy.delay, delayAux, truncToInt]
example : (Strategy.withJitter (1/5) (.constant 100)).delay 1 [0] = 80 := by
  norm_num [Strategy.delay, delayAux, truncToInt]
example : (Strategy.withJitter (7/20) (.constant 10)).delay 1 [0] = 6 := by
  norm_num [Strategy.delay, delayAux, truncToInt]
example : (Strategy.linear 1).delay (-1) [] = -1 := by decide
example : (Strategy.exponential (100 * 1000000)).delay 38 []
    = -4702848726509551616 := by decide

/-- Side conditions under which the delay strategies cannot overflow and
cannot be handed negative parameters: every `Constant`, `Linear` and
`Exponential` base is nonnegative, `Linear` cannot overflow up to attempt
10000, `Exponential` cannot overflow up to the shift guard (`2^61`), and
every `WithCap` bound is nonnegative. -/
def safeParams : Strategy → Bool
  | .constant d => decide (0 ≤ d)
  | .linear base => decide (0 ≤ base) && decide (base * 10000 ≤ maxInt64)
  | .exponential base => decide (0 ≤ base) && decide (base * 2 ^ 61 ≤ maxInt64)
  | .withCap max b => decide (0 ≤ max) && safeParams b
  | .withMin _ b => safeParams b
  | .withJitter _ b => safeParams b

/-! ## Error model

Go errors as seen by this package: leaf errors (`base`), `fmt.Errorf`-style
single wrappers (`wrap`), the package's terminal marker `*stopError`
(`stop`), and `errors.Join` results (`join`). -/

inductive GoErr : Type
  | base (id : Nat)
  | wrap (id : Nat) (inner : GoErr)
  | stop (inner : GoErr)
  | join (errs : List GoErr)

/-- Structural equality of errors, standing in for Go interface equality
`err == target` in `errors.Is`. -/
def GoErr.beq : GoErr → GoErr → Bool
  | .base i, .base j => i == j
  | .wrap i a, .wrap j b => i == j && GoErr.beq a b
  | .stop a, .stop b => GoErr.beq a b
  | .join as, .join bs => goList as bs
  | _, _ => false
where goList : List GoErr → List GoErr → Bool
  | [], [] => true
  | a :: as, b :: bs => GoErr.beq a b && goList as bs
  | _, _ => false

instance : BEq GoErr := ⟨GoErr.beq⟩

/-- Terminal marker constructor `retry.Stop`: wraps a non-nil error in the terminal marker and passes
`nil` through unchanged. -/
def Stop : Option GoErr → Option GoErr
  | none => none
  | some e => some (.stop e)

/-- Go `errors.As(err, &stopped)` with target type `*stopError`, followed by
`stopped.Unwrap()`: pre-order walk of the error tree through `Unwrap`
(single child for `wrap`/`stop`, all children in order for `join`),
returning the cause held by the first terminal marker found. -/
def findStop : GoErr → Option GoErr
  | .stop inner => some inner
  | .base _ => none
  | .wrap _ e => findStop e
  | .join es => goJoin es
where goJoin : List GoErr → Option GoErr
  | [] => none
  | e :: es =>
    match findStop e with
    | some x => some x
    | none => goJoin es

/-- Whether the error tree contains the terminal marker at any depth. -/
def containsStop : GoErr → Bool
  | .stop _ => true
  | .base _ => false
  | .wrap _ e => containsStop e
  | .join es => goJoin es
where goJoin : List GoErr → Bool
  | [] => false
  | e :: es => containsStop e || goJoin es

/-- Chain membership `errors.Is(e, target)`: `e == target`, or recurse through `Unwrap`. -/
def isErr (e target : GoErr) : Bool :=
  GoErr.beq e target ||
    match e with
    | .wrap _ a => isErr a target
    | .stop a => isErr a target
    | .join as => goJoin as target
    | .base _ => false
where goJoin : List GoErr → GoErr → Bool
  | [], _ => false
  | a :: as, t => isErr a t || goJoin as t

/-- Translation of `joinErrors` from `retry.go`: a single collected error is returned
as-is, otherwise `errors.Join` combines them (`errors.Join` of an empty
slice is `nil`). -/
def joinErrors : List GoErr → Option GoErr
  | [] => none
  | [e] => some e
  | es => some (.join es)

/-! ## Execution loop -/

/-- The fields of `config` consulted by `execute` (hooks are modelled by
recording their invocation sites in the `Trace`; a `none` condition models a
nil `cfg.condition`). -/
structure Config where
  maxAttempts : Int
  maxDuration : Int
  backoff : Int → Int
  condition : Option (GoErr → Bool)
  allErrors : Bool

/-- Deterministic environment of one `execute` run: `fn k` is the result of
the `k`-th operation invocation (`none` = success), `nowSeq k` the value
returned by the `k`-th `Clock.Now()` call (nanoseconds), and `sleepCancel k`
whether the `k`-th `Clock.Sleep` is interrupted by context cancellation. -/
structure Env where
  fn : Nat → Option GoErr
  nowSeq : Nat → Int
  sleepCancel : Nat → Bool

/-- Which of the return sites of `execute` fired. -/
inductive Outcome : Type
  | success
  | stopped
  | exhausted
  | rejected
  | deadlineExceeded
  | deadlineClamped
  | cancelled
deriving DecidableEq

/-- Observable behaviour of one `execute` run: final return value, number of
operation invocations, lifecycle-hook invocation sites (with their
arguments), sleeps performed, and which exit fired. -/
structure Trace where
  result : Option GoErr
  fnCalls : Nat
  onSuccessCalls : List Int
  onExhaustedCalls : List (Int × GoErr)
  onRetryCalls : List (Int × GoErr × Int)
  sleeps : List Int
  outcome : Outcome

/-- Predicate rejection test `cfg.condition != nil && !cfg.condition(err)`. -/
def rejects (condition : Option (GoErr → Bool)) (e : GoErr) : Bool :=
  match condition with
  | some c => !(c e)
  | none => false

/-- Go constant `retry.DefaultMaxAttempts`. -/
def DefaultMaxAttempts : Int := 3

/-- The attempt-budget floor at the top of `execute`:
`if maxAttempts <= 0 { maxAttempts = DefaultMaxAttempts }`. -/
def effectiveMaxAttempts (n : Int) : Int := if n ≤ 0 then DefaultMaxAttempts else n

/-- The body of `execute`'s `for attempt := 1; ; attempt++` loop, translated
exit by exit from `retry.go`.  `remaining` counts the attempts still allowed
(`maxAttempts - attempt`), so `remaining = 0` is exactly the Go guard
`attempt >= maxAttempts`; `attempt` is carried alongside for hook arguments
and the backoff call.  `fnIdx`, `nowIdx` and `sleepIdx` index into the
environment's oracles — in particular `Clock.Now()` is consulted only when a
duration budget is configured, exactly as in the source's short-circuit
`cfg.maxDuration > 0 && cfg.clock.Now().After(deadline)`. -/
def executeLoop (maxDuration : Int) (backoff : Int → Int)
    (condition : Option (GoErr → Bool)) (allErrors : Bool)
    (env : Env) (deadline : Int) :
    Nat → Int → Option GoErr → List GoErr → Nat → Nat → Nat → Trace
  | remaining, attempt, lastErr, errs, fnIdx, nowIdx, sleepIdx =>
    match env.fn fnIdx with
    | none =>
        { result := none, fnCalls := 1, onSuccessCalls := [attempt],
          onExhaustedCalls := [], onRetryCalls := [], sleeps := [],
          outcome := .success }
    | some err =>
      match findStop err with
      | some inner =>
          { result := some inner, fnCalls := 1, onSuccessCalls := [],
            onExhaustedCalls := [], onRetryCalls := [], sleeps := [],
            outcome := .stopped }
      | none =>
        let lastErr := if allErrors then lastErr else some err
        let errs := if allErrors then errs ++ [err] else errs
        let ret := if allErrors then joinErrors errs else lastErr
        match remaining with
        | 0 =>
            { result := ret, fnCalls := 1, onSuccessCalls := [],
              onExhaustedCalls := [(attempt, err)], onRetryCalls := [], sleeps := [],
              outcome := .exhausted }
        | r + 1 =>
          if rejects condition err then
            { result := ret, fnCalls := 1, onSuccessCalls := [],
              onExhaustedCalls := [], onRetryCalls := [], sleeps := [],
              outcome := .rejected }
          else if 0 < maxDuration ∧ deadline < env.nowSeq nowIdx then
            { result := ret, fnCalls := 1, onSuccessCalls := [],
              onExhaustedCalls := [(attempt, err)], onRetryCalls := [], sleeps := [],
              outcome := .deadlineExceeded }
          else if 0 < maxDuration then
            let nowIdx := nowIdx + 1
            let delay := backoff attempt
            let remainingTime := satSub deadline (env.nowSeq nowIdx)
            let delay := if delay > remainingTime then remainingTime else delay
            if delay ≤ 0 then
              { result := ret, fnCalls := 1, onSuccessCalls := [],
                onExhaustedCalls := [(attempt, err)], onRetryCalls := [], sleeps := [],
                outcome := .deadlineClamped }
            else if env.sleepCancel sleepIdx then
              { result := ret, fnCalls := 1, onSuccessCalls := [],
                onExhaustedCalls := [], onRetryCalls := [(attempt, err, delay)],
                sleeps := [delay], outcome := .cancelled }
            else
              let t := executeLoop maxDuration backoff condition allErrors env deadline
                r (attempt + 1) lastErr errs (fnIdx + 1) (nowIdx + 1) (sleepIdx + 1)
              { t with fnCalls := t.fnCalls + 1,
                       onRetryCalls := (attempt, err, delay) :: t.onRetryCalls,
                       sleeps := delay :: t.sleeps }
          else
            let delay := backoff attempt
            if env.sleepCancel sleepIdx then
              { result := ret, fnCalls := 1, onSuccessCalls := [],
                onExhaustedCalls := [], onRetryCalls := [(attempt, err, delay)],
                sleeps := [delay], outcome := .cancelled }
            else
              let t := executeLoop maxDuration backoff condition allErrors env deadline
                r (attempt + 1) lastErr errs (fnIdx + 1) nowIdx (sleepIdx + 1)
              { t with fnCalls := t.fnCalls + 1,
                       onRetryCalls := (attempt, err, delay) :: t.onRetryCalls,
                       sleeps := delay :: t.sleeps }

/-- Top level of `execute(ctx, fn, cfg)`: set the deadline when a duration budget is
configured (consuming one `Now()` call), apply the attempt-budget floor, and
run the loop from attempt 1. -/
def execute (cfg : Config) (env : Env) : Trace :=
  let deadline := if 0 < cfg.maxDuration then env.nowSeq 0 + cfg.maxDuration else 0
  let nowIdx := if 0 < cfg.maxDuration then 1 else 0
  let maxAttempts := effectiveMaxAttempts cfg.maxAttempts
  executeLoop cfg.maxDuration cfg.backoff cfg.condition cfg.allErrors env deadline
    (maxAttempts - 1).toNat 1 none [] 0 nowIdx 0

/-- The exits that invoke the exhaustion hook: attempt budget spent, already
past the deadline, or delay clamped to nothing by the deadline. -/
def Outcome.isExhaustedExit : Outcome → Bool
  | .exhausted | .deadlineExceeded | .deadlineClamped => true
  | _ => false

/-- Invariant relating the exhaustion-hook invocations of a trace to its
outcome: the hook fires exactly once, with the final attempt number, on the
attempt-budget and deadline exits, and never otherwise. -/
def hookInv (attempt : Int) (t : Trace) : Prop :=
  t.onExhaustedCalls.map Prod.fst
    = if t.outcome.isExhaustedExit then [attempt + (t.fnCalls : Int) - 1] else []

/-! ## Concrete configurations and environments used by the claims -/

/-- Policy of the spec's 5-attempt scenario: `max_attempts = 5`, no duration
budget, constant unit backoff, default condition, last-error mode. -/
def cfgFive : Config :=
  { maxAttempts := 5, maxDuration := 0, backoff := fun _ => 1,
    condition := some (fun _ => true), allErrors := false }

/-- An operation that always fails with the same error; no deadline
movement, no cancellation. -/
def envAlwaysFail : Env :=
  { fn := fun _ => some (.base 0), nowSeq := fun _ => 0,
    sleepCancel := fun _ => false }

/-- Like `envAlwaysFail` but every sleep is interrupted by cancellation. -/
def envCancelled : Env :=
  { fn := fun _ => some (.base 0), nowSeq := fun _ => 0,
    sleepCancel := fun _ => true }

/-- First attempt fails with `E1 = base i`, every later attempt with
`E2 = base j`. -/
def envTwoErrors (i j : Nat) : Env :=
  { fn := fun k => if k = 0 then some (.base i) else some (.base j),
    nowSeq := fun _ => 0, sleepCancel := fun _ => false }

/-- Two-attempt policy used by the error-selection scenario; `aggregate`
selects `WithAllErrors`. -/
def cfgTwo (aggregate : Bool) : Config :=
  { maxAttempts := 2, maxDuration := 0, backoff := fun _ => 1,
    condition := some (fun _ => true), allErrors := aggregate }

/-- Aggregation-mode policy whose operation fails plainly on attempt 1 and
returns a terminal-marked error on attempt 2. -/
def envStopSecond : Env :=
  { fn := fun k => if k = 0 then some (.base 1) else some (.stop (.base 2)),
    nowSeq := fun _ => 0, sleepCancel := fun _ => false }

/-- Five-attempt aggregation-mode policy. -/
def cfgFiveAll : Config :=
  { maxAttempts := 5, maxDuration := 0, backoff := fun _ => 1,
    condition := some (fun _ => true), allErrors := true }

/-- Policy whose retry predicate rejects every error, with an
already-expired duration budget behind it. -/
def cfgRejecting : Config :=
  { maxAttempts := 3, maxDuration := 10, backoff := fun _ => 1,
    condition := some (fun _ => false), allErrors := false }

/-- Clock that reports time 0 at setup and time 100 on every later call. -/
def envLateClock : Env :=
  { fn := fun _ => some (.base 0), nowSeq := fun k => if k = 0 then 0 else 100,
    sleepCancel := fun _ => false }

/-- Like `cfgRejecting` but with a predicate that accepts every error. -/
def cfgDeadline : Config :=
  { maxAttempts := 3, maxDuration := 10, backoff := fun _ => 1,
    condition := some (fun _ => true), allErrors := false }

/-- Two-attempt policy with duration budget 1000 and backoff `d`, used for
the delay-clamping claim. -/
def cfgClamp (d : Int) : Config :=
  { maxAttempts := 2, maxDuration := 1000, backoff := fun _ => d,
    condition := none, allErrors := false }

/-- Clock for the clamping claim: deadline setup at time 0, the
deadline-passed check still sees time 0, and the clamping `Now()` call sees
`1000 - r`, so exactly `r` nanoseconds remain. -/
def envClamp (r : Int) : Env :=
  { fn := fun _ => some (.base 0),
    nowSeq := fun k => if k ≤ 1 then 0 else 1000 - r,
    sleepCancel := fun _ => false }

/-- Operation that returns a terminal-marked error on the very first
attempt. -/
def envStopFirst : Env :=
  { fn := fun _ => some (.stop (.base 7)), nowSeq := fun _ => 0,
    sleepCancel := fun _ => false }

/-- One-attempt policy whose predicate rejects everything and whose
duration budget is tiny, used to exhibit exit-order precedence. -/
def cfgOneRejecting : Config :=
  { maxAttempts := 1, maxDuration := 10, backoff := fun _ => 1,
    condition := some (fun _ => false), allErrors := true }

/-- Operation that fails with a terminal marker buried under an outer
wrapper, as produced by wrapping the result of `Stop`. -/
def envWrapStop : Env :=
  { fn := fun _ => some (.wrap 5 (.stop (.base 11))), nowSeq := fun _ => 0,
    sleepCancel := fun _ => false }

/-! ## Helper lemmas -/

/-- Within the `int64` range two's-complement wrapping is the identity. -/
theorem wrap64_eq_self {x : Int} (h1 : minInt64 ≤ x) (h2 : x ≤ maxInt64) :
    wrap64 x = x := by
  unfold wrap64
  unfold minInt64 at h1
  unfold maxInt64 at h2
  norm_num at h1 h2 ⊢
  rw [Int.emod_eq_of_lt (by omega) (by omega)]
  omega

/-! ## Claim C1: nonnegativity of composed delays -/

/-- C1, counterexample: the claim quantifies over every strategy built from
the package's constructors and every attempt in `[-1, 10000]`, but
`Linear(100ms).Delay(-1)` is negative, `Constant` passes a negative base
through, `Exponential(100ms).Delay(38)` overflows `int64` to a negative
value, so does `Linear(2^59ns).Delay(10000)`, and a negative `WithCap`
bound is returned as-is. -/
theorem c1_counterexample :
    (Strategy.linear (100 * 1000000)).delay (-1) [] < 0 ∧
    (Strategy.constant (-1)).delay 1 [] < 0 ∧
    (Strategy.exponential (100 * 1000000)).delay 38 [] < 0 ∧
    (Strategy.linear (2 ^ 59)).delay 10000 [] < 0 ∧
    (Strategy.withCap (-1) (.constant 0)).delay 1 [] < 0 := by
  refine ⟨?_, ?_, ?_, ?_, ?_⟩ <;> decide

/-- C1, amended: for every strategy whose numeric parameters are safe —
nonnegative `Constant`/`Linear`/`Exponential` bases that cannot overflow
`int64` within the attempt range resp. the shift guard, and nonnegative
`WithCap` bounds — `Delay(attempt)` is nonnegative for every attempt in
`[0, 10000]` and every sequence of jitter draws. -/
theorem c1_delay_nonneg (s : Strategy) (hs : safeParams s = true)
    (attempt : Int) (h0 : 0 ≤ attempt) (h1 : attempt ≤ 10000) (us : List ℚ) :
    0 ≤ s.delay attempt us := by
  induction s with
  | constant d =>
      simp only [safeParams, decide_eq_true_eq] at hs
      simpa [Strategy.delay, delayAux] using hs
  | linear base =>
      simp only [safeParams, Bool.and_eq_true, decide_eq_true_eq] at hs
      obtain ⟨hb, hov⟩ := hs
      have hle : base * attempt ≤ base * 10000 :=
        mul_le_mul_of_nonneg_left h1 hb
      have hnn : 0 ≤ base * attempt := mul_nonneg hb h0
      have := wrap64_eq_self (x := base * attempt)
        (by unfold minInt64; omega) (le_trans hle hov)
      simp only [Strategy.delay, delayAux]
      omega
  | exponential base =>
      simp only [safeParams, Bool.and_eq_true, decide_eq_true_eq] at hs
      obtain ⟨hb, hov⟩ := hs
      simp only [Strategy.delay, delayAux]
      split
      · exact hb
      · split
        · unfold maxInt64
          norm_num
        · rename_i hpos hle62
          have hk : (attempt - 1).toNat ≤ 61 := by omega
          have hpow : (2 : Int) ^ (attempt - 1).toNat ≤ 2 ^ 61 :=
            pow_le_pow_right₀ (by norm_num) hk
          have hnn : 0 ≤ base * 2 ^ (attempt - 1).toNat :=
            mul_nonneg hb (by positivity)
          have hle : base * 2 ^ (attempt - 1).toNat ≤ base * 2 ^ 61 :=
            mul_le_mul_of_nonneg_left hpow hb
          have := wrap64_eq_self (x := base * 2 ^ (attempt - 1).toNat)
            (by unfold minInt64; omega) (le_trans hle hov)
          omega
  | withCap max b ih =>
      simp only [safeParams, Bool.and_eq_true, decide_eq_true_eq] at hs
      obtain ⟨hm, hb⟩ := hs
      have hinner := ih hb
      simp only [Strategy.delay, delayAux] at hinner ⊢
      split
      · exact hm
      · exact hinner
  | withMin min b ih =>
      simp only [safeParams] at hs
      have hinner := ih hs
      simp only [Strategy.delay, delayAux] at hinner ⊢
      split
      · rename_i hlt
        omega
      · exact hinner
  | withJitter factor b ih =>
      simp only [safeParams] at hs
      have hinner := ih hs
      simp only [Strategy.delay, delayAux] at hinner ⊢
      split
      · exact hinner
      · dsimp only
        split
        · exact le_refl 0
        · rename_i hnlt
          omega

/-- C1 witness: a jittered, capped, floored exponential strategy with safe
parameters evaluated at attempt 3. -/
theorem c1_delay_nonneg_witness :
    0 ≤ (Strategy.withJitter (1/5)
      (.withCap 1000000000 (.withMin 10 (.exponential 3)))).delay 3 [(1 : ℚ)/2] :=
  c1_delay_nonneg _ (by decide) 3 (by decide) (by decide) _

/-! ## Claim C2: exponential growth and its overflow guard -/

/-- C2: the guard `attempt > 62` in `Exponential` does not prevent overflow
for the package's own default base.  With `base = 100ms` the code's comment
(`// Prevent overflow`) and the documented saturation are violated at
attempt 38: the exact value `100ms * 2^37` exceeds `MaxInt64` and the
`int64` product wraps to a negative duration.  The `attempt ≤ 0` and
`attempt > 62` clauses themselves behave as documented. -/
theorem c2_exponential_wraps_negative :
    (Strategy.exponential (100 * 1000000)).delay 38 [] = -4702848726509551616 ∧
    (Strategy.exponential (100 * 1000000)).delay 38 [] < 0 ∧
    (100 * 1000000 : Int) * 2 ^ 37 = 13743895347200000000 ∧
    maxInt64 < (100 * 1000000 : Int) * 2 ^ 37 ∧
    (Strategy.exponential (100 * 1000000)).delay 0 [] = 100 * 1000000 ∧
    (Strategy.exponential (100 * 1000000)).delay (-1) [] = 100 * 1000000 ∧
    (Strategy.exponential (100 * 1000000)).delay 63 [] = maxInt64 ∧
    (Strategy.exponential (100 * 1000000)).delay 100 [] = maxInt64 := by
  refine ⟨?_, ?_, ?_, ?_, ?_, ?_, ?_, ?_⟩ <;> decide

/-! ## Claim C8: jitter bounds -/

/-- C8, counterexample: with `factor = 0.35`, `inner = Constant(10ns)` and
the producible draw `rand.Float64() = 0`, the computed float value is
`10 - 3.5 = 6.5` and the conversion to `time.Duration` truncates it to 6ns,
which lies strictly below the claimed lower bound `d*(1-f) = 6.5`. -/
theorem c8_counterexample :
    (Strategy.withJitter (7/20) (.constant 10)).delay 1 [0] = 6 ∧
    ((Strategy.withJitter (7/20) (.constant 10)).delay 1 [0] : ℚ)
      < 10 * (1 - 7/20) := by
  constructor
  · norm_num [Strategy.delay, delayAux, truncToInt]
  · norm_num [Strategy.delay, delayAux, truncToInt]

/-- C8, amended: with `factor ≤ 0` (including negative factors) the jitter
wrapper returns the inner delay unchanged for every attempt and every draw
sequence; with `0 < factor ≤ 1` over `Constant(d)`, `d ≥ 0`, every draw the
source can produce (`0 ≤ u < 1`) yields a nonnegative result lying in
`(d*(1-factor) - 1, d*(1+factor)]` — within the claimed real interval up to
the 1ns truncation of the `time.Duration` conversion at the lower end. -/
theorem c8_jitter_bounds :
    (∀ (f : ℚ) (s : Strategy) (attempt : Int) (us : List ℚ), f ≤ 0 →
      (Strategy.withJitter f s).delay attempt us = s.delay attempt us) ∧
    (∀ (f : ℚ) (d : Int) (attempt : Int) (u : ℚ),
      0 < f → f ≤ 1 → 0 ≤ d → 0 ≤ u → u < 1 →
      0 ≤ (Strategy.withJitter f (.constant d)).delay attempt [u] ∧
      (d : ℚ) * (1 - f) - 1
        < ((Strategy.withJitter f (.constant d)).delay attempt [u] : ℚ) ∧
      ((Strategy.withJitter f (.constant d)).delay attempt [u] : ℚ)
        ≤ (d : ℚ) * (1 + f)) := by
  constructor
  · intro f s attempt us hf
    simp [Strategy.delay, delayAux, hf]
  · intro f d attempt u hf0 hf1 hd hu0 hu1
    have hdq : (0 : ℚ) ≤ (d : ℚ) := by exact_mod_cast hd
    simp only [Strategy.delay, delayAux, List.headD, List.tail]
    rw [if_neg (not_le.mpr hf0)]
    dsimp only
    set x : ℚ := (d : ℚ) + (u * 2 - 1) * ((d : ℚ) * f) with hxdef
    have hxlo : (d : ℚ) * (1 - f) ≤ x := by
      have h2u : 0 ≤ u * 2 := by linarith
      nlinarith [mul_nonneg (mul_nonneg hu0 hdq) hf0.le]
    have hxhi : x ≤ (d : ℚ) * (1 + f) := by
      nlinarith [mul_nonneg hdq hf0.le]
    have hx0 : 0 ≤ x := le_trans (by nlinarith) hxlo
    have htr : truncToInt x = ⌊x⌋ := by simp [truncToInt, hx0]
    have hfl0 : 0 ≤ ⌊x⌋ := Int.floor_nonneg.mpr hx0
    rw [htr, if_neg (not_lt.mpr hfl0)]
    refine ⟨hfl0, ?_, ?_⟩
    · have := Int.sub_one_lt_floor x
      have hcast : (x - 1 : ℚ) < (⌊x⌋ : ℚ) := by exact_mod_cast this
      linarith
    · have := Int.floor_le x
      linarith

/-! ## Claim C4: the exhaustion hook fires exactly on budget exhaustion -/

set_option maxHeartbeats 1000000 in
/-- Loop invariant for the exhaustion hook, by induction on the remaining
attempt budget. -/
theorem loop_exhausted_hook (maxDuration : Int) (backoff : Int → Int)
    (condition : Option (GoErr → Bool)) (allErrors : Bool) (env : Env) (deadline : Int) :
    ∀ (remaining : Nat) (attempt : Int) (lastErr : Option GoErr) (errs : List GoErr)
      (fnIdx nowIdx sleepIdx : Nat),
      hookInv attempt (executeLoop maxDuration backoff condition allErrors env deadline
          remaining attempt lastErr errs fnIdx nowIdx sleepIdx) := by
  intro remaining
  induction remaining with
  | zero =>
    intro attempt lastErr errs fnIdx nowIdx sleepIdx
    rw [executeLoop.eq_def]
    cases h : env.fn fnIdx with
    | none => simp [h, hookInv, Outcome.isExhaustedExit]
    | some err =>
      cases hf : findStop err with
      | some inner => simp [h, hf, hookInv, Outcome.isExhaustedExit]
      | none => simp [h, hf, hookInv, Outcome.isExhaustedExit]
  | succ r ih =>
    intro attempt lastErr errs fnIdx nowIdx sleepIdx
    rw [executeLoop.eq_def]
    cases h : env.fn fnIdx with
    | none => simp [h, hookInv, Outcome.isExhaustedExit]
    | some err =>
      cases hf : findStop err with
      | some inner => simp [h, hf, hookInv, Outcome.isExhaustedExit]
      | none =>
        simp only [h, hf]
        repeat' split
        all_goals
          first
            | (simp [hookInv, Outcome.isExhaustedExit]; done)
            | (simp only [hookInv]
               try dsimp only
               rw [ih]
               split <;> first
                 | rfl
                 | (congr 1; push_cast; ring))

/-- C4: across all configurations and environments, the exhaustion hook is
invoked exactly once — with the final attempt count — if and only if the
loop exits by exhausting the attempt budget or the duration budget (the
deadline-passed and delay-clamped exits); it is never invoked on the
predicate-rejection or cancellation exits.  Concretely: with
`max_attempts = 5` and an always-failing operation the operation runs
exactly 5 times and the hook fires once with attempt count 5, while the
rejecting and cancelled runs never fire it. -/
theorem c4_exhausted_hook :
    (∀ (cfg : Config) (env : Env),
      (execute cfg env).onExhaustedCalls.map Prod.fst
        = if (execute cfg env).outcome.isExhaustedExit
          then [((execute cfg env).fnCalls : Int)] else []) ∧
    (execute cfgFive envAlwaysFail).fnCalls = 5 ∧
    (execute cfgFive envAlwaysFail).onExhaustedCalls = [(5, .base 0)] ∧
    (execute cfgFive envAlwaysFail).outcome = .exhausted ∧
    (execute cfgRejecting envLateClock).outcome = .rejected ∧
    (execute cfgRejecting envLateClock).onExhaustedCalls = [] ∧
    (execute cfgFive envCancelled).outcome = .cancelled ∧
    (execute cfgFive envCancelled).onExhaustedCalls = [] := by
  refine ⟨?_, rfl, rfl, rfl, rfl, rfl, rfl, rfl⟩
  intro cfg env
  have h : hookInv 1 (execute cfg env) :=
    loop_exhausted_hook cfg.maxDuration cfg.backoff cfg.condition cfg.allErrors env
      (if 0 < cfg.maxDuration then env.nowSeq 0 + cfg.maxDuration else 0)
      ((effectiveMaxAttempts cfg.maxAttempts - 1).toNat) 1 none [] 0
      (if 0 < cfg.maxDuration then 1 else 0) 0
  simp only [hookInv] at h
  rw [h]
  split
  · congr 1
    omega
  · rfl

/-! ## Claim C3: terminal errors stop the loop at once -/

/-- C3: whenever the operation's very first result is a terminal-marked
error, the loop returns the unwrapped cause immediately — one operation
call, no hooks, no sleeps — for every configuration (including aggregation
mode).  And in aggregation mode, an error recorded on a prior attempt is
bypassed by a later terminal error: only the terminal error's cause comes
back. -/
theorem c3_terminal_stop :
    (∀ (cfg : Config) (env : Env) (e : GoErr), env.fn 0 = some (.stop e) →
      execute cfg env =
        { result := some e, fnCalls := 1, onSuccessCalls := [],
          onExhaustedCalls := [], onRetryCalls := [], sleeps := [],
          outcome := .stopped }) ∧
    (execute cfgFiveAll envStopSecond).result = some (.base 2) ∧
    (execute cfgFiveAll envStopSecond).fnCalls = 2 ∧
    (execute cfgFiveAll envStopSecond).outcome = .stopped ∧
    (execute cfgFiveAll envStopSecond).onExhaustedCalls = [] ∧
    Stop (some (.base 2)) = some (.stop (.base 2)) ∧
    Stop none = none := by
  refine ⟨?_, rfl, rfl, rfl, rfl, rfl, rfl⟩
  intro cfg env e h
  unfold execute
  rw [executeLoop.eq_def]
  simp [h, findStop]

/-- C3 witness: a terminal error on attempt 1 under the five-attempt
policy. -/
theorem c3_terminal_stop_witness :
    execute cfgFive envStopFirst =
      { result := some (.base 7), fnCalls := 1,
        onSuccessCalls := [], onExhaustedCalls := [], onRetryCalls := [],
        sleeps := [], outcome := .stopped } :=
  c3_terminal_stop.1 cfgFive envStopFirst (.base 7) rfl

/-! ## Claim C5: the order of the exit conditions -/

/-- C5: precedence of the exit checks after a failed attempt.  A
terminal-marked first result exits as `Stopped` under every configuration
(so ahead of every budget); with the attempt budget already spent
(`max_attempts = 1`) the loop exits `Exhausted`, invoking the exhaustion
hook and returning the just-recorded error, for every retry predicate —
including one that would reject the error — and every deadline; a rejecting
predicate beats an already-expired deadline (exit `ConditionRejected`, no
hook); and an expired deadline is detected before the delay computation and
the retry hook (exit `Exhausted` with no retry-hook call and no sleep). -/
theorem c5_exit_order :
    (∀ (cfg : Config) (env : Env) (e : GoErr), env.fn 0 = some (.stop e) →
      (execute cfg env).outcome = .stopped) ∧
    (∀ (cfg : Config) (env : Env) (err : GoErr), cfg.maxAttempts = 1 →
      env.fn 0 = some err → findStop err = none →
      execute cfg env =
        { result := some err, fnCalls := 1, onSuccessCalls := [],
          onExhaustedCalls := [(1, err)], onRetryCalls := [], sleeps := [],
          outcome := .exhausted }) ∧
    (execute cfgRejecting envLateClock =
      { result := some (.base 0), fnCalls := 1, onSuccessCalls := [],
        onExhaustedCalls := [], onRetryCalls := [], sleeps := [],
        outcome := .rejected }) ∧
    (execute cfgDeadline envLateClock =
      { result := some (.base 0), fnCalls := 1, onSuccessCalls := [],
        onExhaustedCalls := [(1, .base 0)], onRetryCalls := [], sleeps := [],
        outcome := .deadlineExceeded }) := by
  refine ⟨?_, ?_, rfl, rfl⟩
  · intro cfg env e h
    unfold execute
    rw [executeLoop.eq_def]
    simp [h, findStop]
  · intro cfg env err hm h hf
    unfold execute
    rw [executeLoop.eq_def]
    simp only [hm, h, hf, effectiveMaxAttempts, DefaultMaxAttempts]
    norm_num
    cases hae : cfg.allErrors <;> simp [hae, joinErrors]

/-- C5 witness: terminal precedence under the five-attempt policy, and
budget-over-predicate precedence under a one-attempt aggregating policy
whose predicate rejects everything behind an expired deadline. -/
theorem c5_exit_order_witness :
    (execute cfgFive envStopFirst).outcome = .stopped ∧
    execute cfgOneRejecting envLateClock =
      { result := some (.base 0), fnCalls := 1, onSuccessCalls := [],
        onExhaustedCalls := [(1, .base 0)], onRetryCalls := [], sleeps := [],
        outcome := .exhausted } :=
  ⟨c5_exit_order.1 cfgFive envStopFirst (.base 7) rfl,
   c5_exit_order.2.1 cfgOneRejecting envLateClock (.base 0) rfl rfl rfl⟩

/-! ## Claim C7: error selection -/

/-- C7: after two failing attempts with distinct errors `E1 = base i` then
`E2 = base j`, the default mode returns an error that `errors.Is`-matches
`E2` and not `E1`, while aggregation mode (`WithAllErrors`) returns the
join of both, which matches each of them. -/
theorem c7_error_selection (i j : Nat) (hij : i ≠ j) :
    (execute (cfgTwo false) (envTwoErrors i j)).result = some (.base j) ∧
    isErr (.base j) (.base j) = true ∧
    isErr (.base j) (.base i) = false ∧
    (execute (cfgTwo true) (envTwoErrors i j)).result
      = some (.join [.base i, .base j]) ∧
    isErr (.join [.base i, .base j]) (.base i) = true ∧
    isErr (.join [.base i, .base j]) (.base j) = true := by
  refine ⟨rfl, ?_, ?_, rfl, ?_, ?_⟩
  · simp [isErr, GoErr.beq]
  · simp [isErr, GoErr.beq, Ne.symm hij]
  · simp [isErr, isErr.goJoin, GoErr.beq, GoErr.beq.goList]
  · simp [isErr, isErr.goJoin, GoErr.beq, GoErr.beq.goList]

/-- C7 witness at the distinct error identities 1 and 2. -/
theorem c7_error_selection_witness :
    (execute (cfgTwo false) (envTwoErrors 1 2)).result = some (.base 2) ∧
    isErr (.base 2) (.base 2) = true ∧
    isErr (.base 2) (.base 1) = false ∧
    (execute (cfgTwo true) (envTwoErrors 1 2)).result
      = some (.join [.base 1, .base 2]) ∧
    isErr (.join [.base 1, .base 2]) (.base 1) = true ∧
    isErr (.join [.base 1, .base 2]) (.base 2) = true :=
  c7_error_selection 1 2 (by decide)

/-! ## Claim C9: the attempt-budget floor -/

/-- C9: a non-positive configured maximum attempt count is replaced by the
built-in default of 3 — the run is identical to one configured with 3 —
and the effective cap is always positive; concretely, zero and negative
configured maxima run the operation exactly 3 times. -/
theorem c9_max_attempts_floor :
    (∀ (cfg : Config) (env : Env), cfg.maxAttempts ≤ 0 →
      execute cfg env = execute { cfg with maxAttempts := 3 } env) ∧
    (∀ n : Int, 0 < effectiveMaxAttempts n) ∧
    (execute { cfgFive with maxAttempts := 0 } envAlwaysFail).fnCalls = 3 ∧
    (execute { cfgFive with maxAttempts := -7 } envAlwaysFail).fnCalls = 3 := by
  refine ⟨?_, ?_, rfl, rfl⟩
  · intro cfg env h
    unfold execute
    simp [effectiveMaxAttempts, DefaultMaxAttempts, h]
  · intro n
    unfold effectiveMaxAttempts DefaultMaxAttempts
    split <;> omega

/-- C9 witness: an explicitly zero maximum behaves exactly like 3. -/
theorem c9_max_attempts_floor_witness :
    execute { cfgFive with maxAttempts := 0 } envAlwaysFail
      = execute { { cfgFive with maxAttempts := 0 } with maxAttempts := 3 } envAlwaysFail :=
  c9_max_attempts_floor.1 { cfgFive with maxAttempts := 0 } envAlwaysFail (by decide)

/-! ## Claim C10: terminal detection walks the whole error chain -/

mutual

/-- Search `findStop` succeeds exactly on errors whose tree contains the terminal
marker at some depth. -/
theorem findStop_isSome : ∀ e : GoErr, (findStop e).isSome = containsStop e
  | .base _ => rfl
  | .stop _ => rfl
  | .wrap _ e => findStop_isSome e
  | .join es => findStopList_isSome es

/-- List version of `findStop_isSome`, for the children of a join. -/
theorem findStopList_isSome :
    ∀ es : List GoErr, (findStop.goJoin es).isSome = containsStop.goJoin es
  | [] => rfl
  | e :: es => by
      rw [findStop.goJoin, containsStop.goJoin]
      cases h : findStop e with
      | some x =>
          have hc := findStop_isSome e
          rw [h] at hc
          simp [← hc]
      | none =>
          have hc := findStop_isSome e
          rw [h] at hc
          simp [← hc, findStopList_isSome es]

end

/-- C10: terminal-error detection is chain-deep.  Wrapping outside the
marker never hides it (`findStop` ignores `wrap` layers and searches every
`join` child); `findStop` succeeds exactly when the chain contains a marker
at any depth; and whenever the first operation result contains a marker at
any depth, the loop stops on that attempt and returns the cause stored in
the marker, discarding the outer wrapping. -/
theorem c10_stop_chain :
    (∀ (w : Nat) (e : GoErr), findStop (.wrap w e) = findStop e) ∧
    (∀ e : GoErr, (findStop e).isSome = containsStop e) ∧
    (∀ (cfg : Config) (env : Env) (err inner : GoErr), env.fn 0 = some err →
      findStop err = some inner →
      execute cfg env =
        { result := some inner, fnCalls := 1, onSuccessCalls := [],
          onExhaustedCalls := [], onRetryCalls := [], sleeps := [],
          outcome := .stopped }) ∧
    findStop (.wrap 9 (.stop (.base 7))) = some (.base 7) ∧
    findStop (.join [.base 1, .wrap 2 (.stop (.base 3))]) = some (.base 3) := by
  refine ⟨fun _ _ => rfl, findStop_isSome, ?_, rfl, rfl⟩
  intro cfg env err inner h hf
  unfold execute
  rw [executeLoop.eq_def]
  simp [h, hf]

/-- C10 witness: a marker wrapped by an outer layer is found and its cause
returned. -/
theorem c10_stop_chain_witness :
    execute (cfgTwo false) envWrapStop =
      { result := some (.base 11), fnCalls := 1, onSuccessCalls := [],
        onExhaustedCalls := [], onRetryCalls := [], sleeps := [],
        outcome := .stopped } :=
  c10_stop_chain.2.2.1 (cfgTwo false) envWrapStop (.wrap 5 (.stop (.base 11)))
    (.base 11) rfl rfl

/-! ## Claim C6: deadline-aware delay clamping -/

/-- C6: with a duration budget configured (here 1000ns, with `r` ns left at
the clamping check and backoff delay `d`), the loop clamps the computed
delay to the remaining time; if the clamped delay is `≤ 0` it exits
`Exhausted` through the clamp check, invoking the exhaustion hook, without
sleeping and without calling the retry hook; otherwise it sleeps exactly
the clamped delay (`min d r`) and continues. -/
theorem c6_deadline_clamp (d r : Int) (hr1 : -(2 ^ 62) ≤ r) (hr2 : r ≤ 2 ^ 62) :
    ((if d > r then r else d) ≤ 0 →
      execute (cfgClamp d) (envClamp r) =
        { result := some (.base 0), fnCalls := 1, onSuccessCalls := [],
          onExhaustedCalls := [(1, .base 0)], onRetryCalls := [], sleeps := [],
          outcome := .deadlineClamped }) ∧
    (0 < (if d > r then r else d) →
      execute (cfgClamp d) (envClamp r) =
        { result := some (.base 0), fnCalls := 2, onSuccessCalls := [],
          onExhaustedCalls := [(2, .base 0)],
          onRetryCalls := [(1, .base 0, if d > r then r else d)],
          sleeps := [if d > r then r else d], outcome := .exhausted }) := by
  have hsat : satSub 1000 (1000 - r) = r := by
    unfold satSub maxInt64 minInt64
    norm_num
    omega
  constructor
  · intro hc
    unfold execute
    rw [executeLoop.eq_def]
    norm_num [cfgClamp, envClamp, effectiveMaxAttempts, DefaultMaxAttempts,
      rejects, findStop, hsat, hc]
  · intro hc
    unfold execute
    rw [executeLoop.eq_def]
    norm_num [cfgClamp, envClamp, effectiveMaxAttempts, DefaultMaxAttempts,
      rejects, findStop, hsat, not_le.mpr hc]
    rw [executeLoop.eq_def]
    norm_num [envClamp, findStop]

/-- C6 witness: zero remaining time exits through the clamp without
sleeping; 30ns remaining clamps a 50ns backoff delay to a 30ns sleep. -/
theorem c6_deadline_clamp_witness :
    execute (cfgClamp 5) (envClamp 0) =
      { result := some (.base 0), fnCalls := 1, onSuccessCalls := [],
        onExhaustedCalls := [(1, .base 0)], onRetryCalls := [], sleeps := [],
        outcome := .deadlineClamped } ∧
    execute (cfgClamp 50) (envClamp 30) =
      { result := some (.base 0), fnCalls := 2, onSuccessCalls := [],
        onExhaustedCalls := [(2, .base 0)], onRetryCalls := [(1, .base 0, 30)],
        sleeps := [30], outcome := .exhausted } :=
  ⟨(c6_deadline_clamp 5 0 (by norm_num) (by norm_num)).1 (by norm_num),
   (c6_deadline_clamp 50 30 (by norm_num) (by norm_num)).2 (by norm_num)⟩

/-- C8 witness: the pass-through half at factor 0, and the bounds half at
factor 1/5, base 100ns, draw 1/2. -/
theorem c8_jitter_bounds_witness :
    ((Strategy.withJitter 0 (.constant 5)).delay 1 [] = (Strategy.constant 5).delay 1 []) ∧
    (0 ≤ (Strategy.withJitter (1/5) (.constant 100)).delay 1 [(1 : ℚ)/2] ∧
      (100 : ℚ) * (1 - 1/5) - 1
        < ((Strategy.withJitter (1/5) (.constant 100)).delay 1 [(1 : ℚ)/2] : ℚ) ∧
      ((Strategy.withJitter (1/5) (.constant 100)).delay 1 [(1 : ℚ)/2] : ℚ)
        ≤ (100 : ℚ) * (1 + 1/5)) :=
  ⟨c8_jitter_bounds.1 0 (.constant 5) 1 [] le_rfl,
   c8_jitter_bounds.2 (1/5) 100 1 (1/2) (by norm_num) (by norm_num) (by norm_num)
     (by norm_num) (by norm_num)⟩

end Retry
